import Mathlib

/-!
Shallow embedding of the metrumresearchgroup/command package (capture.go,
result.go, io.go, pipes.go) and proofs about its lifecycle controller.

Go values that can be nil (errors, slices standing for "absent", interface
stream ends, the stored `*exec.Cmd`) are modelled as `Option`; machine
state the OS owns (process exit status, pipe creation, spawn results) is
abstracted as a `World` of response functions, so every operation is a
pure function of the controller state and the world.
-/

namespace Command

/-- A Go `error` value as the package distinguishes them: an
`*exec.ExitError` (the process ran and terminated abnormally, carrying an
exit code) or any other error (spawn failures, modifier failures,
`errors.New` values, ...), identified by its message. -/
inductive GoErr where
  | exitError (code : Int)
  | other (msg : String)
deriving Repr, DecidableEq

/-- `os.ProcessState`: present only after the process has been waited on.
`exited` is `ProcessState.Exited()`; `exitCode` is `ProcessState.ExitCode()`. -/
structure ProcState where
  exited : Bool
  exitCode : Int
deriving Repr, DecidableEq

/-- The data of an `*exec.Cmd` the package reads or writes.  `argv` is
`Cmd.Args` (argv[0] included), `path` is `Cmd.Path` (the executable name;
`LookPath` resolution is elided), `env = none` models a nil `Cmd.Env`
(inherit the parent environment), and `processState` is `Cmd.ProcessState`,
nil until a Wait has completed. -/
structure ExecCmd where
  path : String
  argv : List String
  dir : String
  env : Option (List String)
  processState : Option ProcState
deriving Repr, DecidableEq

/-- `cmd.ProcessState.Exited()` guarded by the nil check the code performs
by short-circuit: `false` when `ProcessState` is nil. -/
def ExecCmd.procExited (cmd : ExecCmd) : Bool :=
  match cmd.processState with
  | some ps => ps.exited
  | none => false

/-- `exec.CommandContext(ctx, name, args...)`: a fresh command value with
`Args = append([]string{name}, args...)` and no process state. -/
def commandContext (name : String) (args : List String) : ExecCmd :=
  { path := name, argv := name :: args, dir := "", env := none, processState := none }

/-- A closable stream end (Go `io.WriteCloser` / `io.ReadCloser`):
closing it yields the error `Close()` returns (nil-able). -/
structure Conduit where
  closeErr : Option GoErr
deriving Repr, DecidableEq

/-- The result of running a Go statement that may panic at runtime. -/
inductive GoResult (α : Type) where
  | ok (val : α)
  | panicked (msg : String)
deriving Repr, DecidableEq

/-- `Pipes` (pipes.go): the stream triple.  `Stdin = none` models a nil
`io.WriteCloser` interface value; the read sides are modelled by the data
readable from them. -/
structure Pipes where
  Stdin : Option Conduit
  Stdout : Option String
  Stderr : Option String
deriving Repr, DecidableEq

/-- `Pipes.CloseInput` (pipes.go): `return p.Stdin.Close()` with no nil
check, so a nil `Stdin` is a nil-interface method call, which panics at
runtime. -/
def Pipes.CloseInput (p : Pipes) : GoResult (Option GoErr) :=
  match p.Stdin with
  | some s => .ok s.closeErr
  | none => .panicked "runtime error: invalid memory address or nil pointer dereference"

/-- The `IO` struct of io.go (renamed: `IO` is reserved in Lean). -/
structure IOStreams where
  Stdin : Option Conduit
  Stdout : Option String
  Stderr : Option String
deriving Repr, DecidableEq

/-- `IO.CloseInput` (io.go): nil `Stdin` is explicitly not an error. -/
def IOStreams.CloseInput (i : IOStreams) : GoResult (Option GoErr) :=
  match i.Stdin with
  | some s => .ok s.closeErr
  | none => .ok none

/-- What the OS reports for one synchronous execution of a command
(`cmd.Run` / `cmd.CombinedOutput`): the bytes written to stdout, stderr,
their interleaving, and the returned error. -/
structure RunOut where
  stdout : String
  stderr : String
  combined : String
  err : Option GoErr
deriving Repr, DecidableEq

/-- The external collaborators (spawn primitive, pipe creation, process
signalling) as deterministic response functions of the command value. -/
structure World where
  runOutcome : ExecCmd → RunOut
  stdinPipe : ExecCmd → Except GoErr Conduit
  stdoutPipe : ExecCmd → Except GoErr String
  stderrPipe : ExecCmd → Except GoErr String
  startErr : ExecCmd → Option GoErr
  killResult : ExecCmd → Option GoErr
  waitResult : ExecCmd → Option GoErr

/-- `Capture` (capture.go): the lifecycle controller.  `tmpCancel = true`
models a non-nil stored cancel func, `tmpCmd` the stored `*exec.Cmd`. -/
structure Capture where
  Name : String
  Args : List String
  Dir : String
  Env : Option (List String)
  ExitCode : Int
  cmdModifierFunc : Option (ExecCmd → Except GoErr ExecCmd)
  tmpCmd : Option ExecCmd
  tmpCancel : Bool

/-- `errToExitCode` (capture.go): `errors.As(err, &exitError)` succeeds
exactly on an exit error, whose code is returned; every other value
(nil included) maps to 0. -/
def errToExitCode (err : Option GoErr) : Int :=
  match err with
  | some (.exitError code) => code
  | _ => 0

/-- The `Option` functional-option type of capture.go (renamed: `Option`
is taken in Lean). -/
def CaptureOption := Capture → Capture

/-- `WithCmdModifier` (capture.go). -/
def WithCmdModifier (fn : ExecCmd → Except GoErr ExecCmd) : CaptureOption :=
  fun c => { c with cmdModifierFunc := some fn }

/-- `WithEnv` (capture.go); the argument may be nil (`none`). -/
def WithEnv (env : Option (List String)) : CaptureOption :=
  fun c => { c with Env := env }

/-- `WithDir` (capture.go). -/
def WithDir (dir : String) : CaptureOption :=
  fun c => { c with Dir := dir }

/-- The zero value of `Capture`, as `var c Capture` produces it. -/
def zeroCapture : Capture :=
  { Name := "", Args := [], Dir := "", Env := none, ExitCode := 0,
    cmdModifierFunc := none, tmpCmd := none, tmpCancel := false }

/-- `New` (capture.go): the zero Capture with the options applied in order. -/
def New (options : List CaptureOption) : Capture :=
  options.foldl (fun c option => option c) zeroCapture

/-- `Capture.With` (capture.go): post-creation option application. -/
def Capture.With (c : Capture) (options : List CaptureOption) : Capture :=
  options.foldl (fun c option => option c) c

/-- The concrete launch request `makeExecCmd` builds before the modifier
runs: `exec.CommandContext(ctx, c.Name, c.Args...)` with `Env` and `Dir`
copied from the controller. -/
def Capture.launchRequest (c : Capture) : ExecCmd :=
  { commandContext c.Name c.Args with env := c.Env, dir := c.Dir }

/-- `makeExecCmd` (capture.go): build the command, then run the modifier
hook if present; a modifier error aborts with that error. -/
def Capture.makeExecCmd (c : Capture) : Except GoErr ExecCmd :=
  match c.cmdModifierFunc with
  | some f => f c.launchRequest
  | none => .ok c.launchRequest

/-- What one of the run-style entry points returns: the controller state
after the call, the `*Pipes` return value (`none` = nil), the returned
error, and whether the OS spawn primitive was ever invoked. -/
structure RunRes where
  state : Capture
  pipes : Option Pipes
  err : Option GoErr
  spawned : Bool

/-- `doRun` (capture.go): run synchronously with stdout/stderr captured
into buffers, record the exit code via `errToExitCode`, and return the
buffer-backed `Pipes` (its `Stdin` is literally nil) together with the
error. -/
def Capture.doRun (c : Capture) (w : World) (cmd : ExecCmd) : RunRes :=
  let out := w.runOutcome cmd
  { state := { c with ExitCode := errToExitCode out.err },
    pipes := some { Stdin := none, Stdout := some out.stdout, Stderr := some out.stderr },
    err := out.err,
    spawned := true }

/-- `Run` (capture.go): overwrite `Name`/`Args`, build the command
(modifier error returns nil pipes and the error, nothing spawned),
otherwise `doRun`. -/
def Capture.Run (c : Capture) (w : World) (name : String) (args : List String) : RunRes :=
  match ({ c with Name := name, Args := args } : Capture).makeExecCmd with
  | .error e => { state := { c with Name := name, Args := args },
                  pipes := none, err := some e, spawned := false }
  | .ok cmd => ({ c with Name := name, Args := args } : Capture).doRun w cmd

/-- Result of `CombinedOutput`: note the Go method does not touch
`c.ExitCode`. -/
structure CombinedRes where
  state : Capture
  output : Option String
  err : Option GoErr
  spawned : Bool

/-- `CombinedOutput` (capture.go): overwrite `Name`/`Args`, build the
command, and return `cmd.CombinedOutput()` directly. -/
def Capture.CombinedOutput (c : Capture) (w : World) (name : String) (args : List String) :
    CombinedRes :=
  match ({ c with Name := name, Args := args } : Capture).makeExecCmd with
  | .error e => { state := { c with Name := name, Args := args },
                  output := none, err := some e, spawned := false }
  | .ok cmd =>
    let out := w.runOutcome cmd
    { state := { c with Name := name, Args := args },
      output := some out.combined, err := out.err, spawned := true }

/-- `Interact` (interact.go): the value Start hands back; its `Plumber`
part is the stream triple (the `Controller` part is the Capture itself). -/
structure Interact where
  Plumber : Pipes
deriving Repr, DecidableEq

/-- What `Start`/`doStart` return. -/
structure StartRes where
  state : Capture
  interact : Option Interact
  err : Option GoErr
  spawned : Bool

/-- `doStart` (capture.go): request the three pipes in order (any failure
returns that error with a nil Interact and nothing spawned), then call
`cmd.Start()`.  A spawn error is only folded into `c.ExitCode` through
`errToExitCode`; the function returns a nil error regardless. -/
def Capture.doStart (c : Capture) (w : World) (cmd : ExecCmd) : StartRes :=
  match w.stdinPipe cmd with
  | .error e => { state := c, interact := none, err := some e, spawned := false }
  | .ok stdin =>
    match w.stdoutPipe cmd with
    | .error e => { state := c, interact := none, err := some e, spawned := false }
    | .ok stdout =>
      match w.stderrPipe cmd with
      | .error e => { state := c, interact := none, err := some e, spawned := false }
      | .ok stderr =>
        let c1 :=
          match w.startErr cmd with
          | some e => { c with ExitCode := errToExitCode (some e) }
          | none => c
        { state := c1,
          interact := some { Plumber :=
            { Stdin := some stdin, Stdout := some stdout, Stderr := some stderr } },
          err := none,
          spawned := true }

/-- `Start` (capture.go): overwrite `Name`/`Args`, install the inner
cancel func, build the command (modifier error aborts), `doStart`, and on
a nil error from `doStart` record the handle in `tmpCmd`. -/
def Capture.Start (c : Capture) (w : World) (name : String) (args : List String) : StartRes :=
  match ({ c with Name := name, Args := args, tmpCancel := true } : Capture).makeExecCmd with
  | .error e => { state := { c with Name := name, Args := args, tmpCancel := true },
                  interact := none, err := some e, spawned := false }
  | .ok cmd =>
    let d := ({ c with Name := name, Args := args, tmpCancel := true } : Capture).doStart w cmd
    match d.err with
    | some e => { d with err := some e }
    | none => { d with state := { d.state with tmpCmd := some cmd } }

/-- `Restart` (capture.go): `c.Start(ctx, c.Name, c.Args...)`. -/
def Capture.Restart (c : Capture) (w : World) : StartRes :=
  c.Start w c.Name c.Args

/-- `Rerun` (capture.go): `c.Run(ctx, c.Name, c.Args...)`. -/
def Capture.Rerun (c : Capture) (w : World) : RunRes :=
  c.Run w c.Name c.Args

/-- `Wait` (capture.go): lifecycle guard, then `c.tmpCmd.Wait()`. -/
def Capture.Wait (c : Capture) (w : World) : Option GoErr :=
  match c.tmpCancel, c.tmpCmd with
  | true, some cmd => w.waitResult cmd
  | _, _ => some (.other "command was not started")

/-- Observable actions of the Stop protocol, in the order they happen:
`cancel` the stored context cancel func firing, `kill` a `Process.Kill`
signal, `poll` one ticker tick checking `ProcessState.Exited()`,
`timeoutFired` the 10-second timer firing. -/
inductive StopEvent where
  | cancel
  | kill
  | poll
  | timeoutFired
deriving Repr, DecidableEq

/-- How a Stop invocation ends: a returned error value (`ret none` is a
nil error), an infinite block (the select waits on channels whose timers
were both stopped), or fuel exhaustion of the model (never reached by the
theorems below). -/
inductive StopOutcome where
  | ret (e : Option GoErr)
  | hang
  | fuelOut
deriving Repr, DecidableEq

/-- The `for { select { ... } }` loop at the end of `doStop`, driven by
real time: the ticker fires every second, the timer once at 10 seconds,
so while both are live the tick at `now + 1` fires first.  On a tick with
the process not exited the code stops BOTH the ticker and the timer and
continues, after which no channel can ever fire: the select blocks
forever (`hang`).  On a tick with the process exited it returns
`c.tmpCmd.Wait()`.  On the timer it returns the "timeout reached" error.
`ProcessState` cannot change during the loop (nothing waits on the
process inside it), so `cmd` is fixed. -/
def stopLoop (cmd : ExecCmd) (w : World) :
    Bool → Bool → Nat → Nat → List StopEvent × StopOutcome
  | _, _, _, 0 => ([], .fuelOut)
  | tickerA, timerA, now, fuel + 1 =>
    if tickerA && (decide (now + 1 < 10) || !timerA) then
      if !cmd.procExited then
        let next := stopLoop cmd w false false (now + 1) fuel
        (.poll :: next.1, next.2)
      else
        ([.poll], .ret (w.waitResult cmd))
    else if timerA then
      ([.timeoutFired], .ret (some (.other "timeout reached")))
    else
      ([], .hang)

/-- `doStop` (capture.go): fire the stored cancel func (if any), then:
nil `tmpCmd` errors; a nil or exited `ProcessState` records the exit code
when the state is present, clears the handle and returns nil; otherwise
(state present, not exited) `Process.Kill()` is sent immediately and the
poll loop runs.  Returns the new state, the event trace, and the outcome. -/
def Capture.doStop (c : Capture) (w : World) : Capture × List StopEvent × StopOutcome :=
  let tr := if c.tmpCancel then [StopEvent.cancel] else []
  match c.tmpCmd with
  | none => (c, tr, .ret (some (.other "wasn't running")))
  | some cmd =>
    if cmd.processState.isNone || cmd.procExited then
      let c1 :=
        match cmd.processState with
        | some ps => { c with ExitCode := ps.exitCode }
        | none => c
      ({ c1 with tmpCmd := none }, tr, .ret none)
    else if cmd.procExited then
      (c, tr, .ret none)
    else
      match w.killResult cmd with
      | some e => (c, tr ++ [StopEvent.kill], .ret (some e))
      | none =>
        let lp := stopLoop cmd w true true 0 20
        (c, tr ++ StopEvent.kill :: lp.1, lp.2)

/-- What `Stop` produces: the controller state afterwards, the outcome,
and the trace of protocol events. -/
structure StopRes where
  state : Capture
  outcome : StopOutcome
  events : List StopEvent

/-- `Stop` (capture.go): lifecycle guard ("command was not started" when
either stored field is nil), then `doStop`, then
`c.ExitCode = errToExitCode(err)` on the returned error. -/
def Capture.Stop (c : Capture) (w : World) : StopRes :=
  if !c.tmpCancel || c.tmpCmd.isNone then
    { state := c, outcome := .ret (some (.other "command was not started")), events := [] }
  else
    let d := c.doStop w
    match d.2.2 with
    | .ret e => { state := { d.1 with ExitCode := errToExitCode e },
                  outcome := .ret e, events := d.2.1 }
    | o => { state := d.1, outcome := o, events := d.2.1 }

/-- Go `path.Base`: empty is ".", trailing slashes are stripped, the last
slash-separated element remains, all-slashes is "/". -/
def pathBase (p : String) : String :=
  if p = "" then "."
  else
    let stripped := (p.toList.reverse.dropWhile (fun ch => ch = '/')).reverse
    let last := (stripped.reverse.takeWhile (fun ch => ch ≠ '/')).reverse
    if last.isEmpty then "/" else String.mk last

namespace ResultVer

/-!
The `Result`-based iteration of the package (result.go).
-/

/-- `Result` (result.go). -/
structure Result where
  Name : String
  Args : List String
  Env : Option (List String)
  Output : String
  ExitCode : Int
deriving Repr, DecidableEq

/-- `errToExitCode` (result.go): explicit nil check, then `errors.As`. -/
def errToExitCode (err : Option GoErr) : Int :=
  match err with
  | none => 0
  | some (.exitError code) => code
  | some (.other _) => 0

/-- `capture` (result.go): `cmd.CombinedOutput()`, then a `Result` built
from the command value and the outcome — always a populated value,
returned alongside the unwrapped error. -/
def capture (cmd : ExecCmd) (w : World) : Result × Option GoErr :=
  let out := w.runOutcome cmd
  ({ Name := pathBase cmd.path, Args := cmd.argv.drop 1, Env := cmd.env,
     Output := out.combined, ExitCode := errToExitCode out.err }, out.err)

/-- `CaptureContext` (result.go): build the command, set its environment,
and `capture` it. -/
def CaptureContext (env : Option (List String)) (name : String) (args : List String)
    (w : World) : Result × Option GoErr :=
  capture { commandContext name args with env := env } w

end ResultVer

/-!
Concrete fixtures used by the closed theorems: a benign world whose
collaborators all succeed, and controller states in the scenarios the
claims quantify over.
-/

/-- A world in which every collaborator succeeds: runs produce empty
output and a nil error, pipes open, spawn, kill and wait all succeed. -/
def w0 : World :=
  { runOutcome := fun _ => { stdout := "", stderr := "", combined := "", err := none }
    stdinPipe := fun _ => .ok { closeErr := none }
    stdoutPipe := fun _ => .ok ""
    stderrPipe := fun _ => .ok ""
    startErr := fun _ => none
    killResult := fun _ => none
    waitResult := fun _ => none }

/-- A started command nobody has waited on yet (`ProcessState` nil): the
state of `tmpCmd` while the process is still running. -/
def runningUnwaitedCmd : ExecCmd :=
  { path := "cat", argv := ["cat"], dir := "", env := none, processState := none }

/-- A controller right after a successful `Start` of a still-running
process. -/
def cRunning : Capture :=
  { zeroCapture with Name := "cat", tmpCancel := true, tmpCmd := some runningUnwaitedCmd }

/-- A started command that has been waited on and whose
`ProcessState.Exited()` is false (a signal-terminated wait): the only
shape of `tmpCmd` from which `doStop` reaches its kill signal and its
poll loop at all. -/
def signaledCmd : ExecCmd :=
  { path := "cat", argv := ["cat"], dir := "", env := none,
    processState := some { exited := false, exitCode := -1 } }

/-- A controller whose stored command has a present, non-exited
`ProcessState`. -/
def cStuck : Capture :=
  { zeroCapture with Name := "cat", tmpCancel := true, tmpCmd := some signaledCmd }

/-- C4: on a controller with no recorded handle (a fresh controller
included), `Stop` and `Wait` both return the lifecycle-misuse error
"command was not started", `Stop` leaves the state untouched and performs
no protocol action, and both are total functions of the state (no
panic). -/
theorem stop_wait_require_start (c : Capture) (w : World) (h : c.tmpCmd = none) :
    (c.Stop w).outcome = .ret (some (.other "command was not started")) ∧
    (c.Stop w).state = c ∧
    (c.Stop w).events = [] ∧
    c.Wait w = some (.other "command was not started") := by
  cases hc : c.tmpCancel <;>
    simp [Capture.Stop, Capture.Wait, h, hc]

/-- Witness for C4 at a concrete input: the controller `New` returns has
no handle recorded, and `Stop`/`Wait` fail as stated. -/
theorem stop_wait_require_start_witness :
    ((New []).Stop w0).outcome = .ret (some (.other "command was not started")) ∧
    ((New []).Stop w0).state = New [] ∧
    ((New []).Stop w0).events = [] ∧
    (New []).Wait w0 = some (.other "command was not started") :=
  stop_wait_require_start (New []) w0 rfl

/-- C1: evaluated where `doStop` reaches its escalation at all (stored
`ProcessState` present and not exited), `Stop` emits the kill signal
directly after the cancellation trigger and BEFORE any poll tick — the
trace is cancel, kill, poll — and its poll loop then blocks forever
(both the ticker and the timeout timer are stopped on the first tick).
The claim's requirement that a kill be sent only after the first poll
tick observes the process alive therefore fails on the code. -/
theorem stop_kills_before_first_poll :
    (cStuck.Stop w0).events = [StopEvent.cancel, StopEvent.kill, StopEvent.poll] ∧
    (cStuck.Stop w0).outcome = .hang ∧
    (cStuck.Stop w0).state.tmpCmd = some signaledCmd := by
  decide

/-- C2: the termination-timeout behaviour the claim describes is
unreachable in the code.  First, universally: no `Stop` invocation ever
fires the 10-second timeout (the only not-exited poll tick stops both
timers, so the timer channel can never be selected).  Second, at the
concrete state of a started still-running process (`ProcessState` nil),
`Stop` returns a nil error immediately and CLEARS the recorded handle —
it neither waits for the ceiling nor leaves the handle for a retry. -/
theorem stop_never_times_out :
    (∀ (c : Capture) (w : World), StopEvent.timeoutFired ∉ (c.Stop w).events) ∧
    (cRunning.Stop w0).outcome = .ret none ∧
    (cRunning.Stop w0).state.tmpCmd = none := by
  refine ⟨?_, by decide, by decide⟩
  intro c w
  have hdoStop : StopEvent.timeoutFired ∉ (c.doStop w).2.1 := by
      unfold Capture.doStop
      rcases hcmd : c.tmpCmd with _ | cmd <;>
        cases hcan : c.tmpCancel <;>
        simp only [hcan, if_true, if_false]
      · simp
      · simp
      · rcases hps : cmd.processState with _ | ps
        · simp [hps]
        · by_cases hex : ps.exited
          · simp [hps, ExecCmd.procExited, hex]
          · have hpe : cmd.procExited = false := by
              simp [ExecCmd.procExited, hps, hex]
            rcases hk : w.killResult cmd with _ | e
            · simp [hps, hpe, hk, stopLoop]
            · simp [hps, hpe, hk]
      · rcases hps : cmd.processState with _ | ps
        · simp [hps]
        · by_cases hex : ps.exited
          · simp [hps, ExecCmd.procExited, hex]
          · have hpe : cmd.procExited = false := by
              simp [ExecCmd.procExited, hps, hex]
            rcases hk : w.killResult cmd with _ | e
            · simp [hps, hpe, hk, stopLoop]
            · simp [hps, hpe, hk]
  unfold Capture.Stop
  split
  · simp
  · rcases hout : (c.doStop w).2.2 with e | _ | _ <;> simp [hout, hdoStop]

/-- The spawn error the OS returns when the executable does not exist. -/
def spawnFailErr : GoErr := .other "fork/exec asdfasdf: no such file or directory"

/-- A world in which the low-level spawn call (`cmd.Start()`) fails while
everything else succeeds. -/
def wSpawnFail : World := { w0 with startErr := fun _ => some spawnFailErr }

/-- C3: evaluated where the low-level spawn call fails, `Start` returns a
NIL error (the spawn error is dropped by `doStart`, which only folds it
through `errToExitCode` — yielding 0, since it is not an exit error — into
`ExitCode`), and the handle IS recorded in `tmpCmd` despite the failed
spawn; the Interact value is still handed back. -/
theorem start_swallows_spawn_error :
    wSpawnFail.startErr (commandContext "asdfasdf" []) = some spawnFailErr ∧
    (zeroCapture.Start wSpawnFail "asdfasdf" []).err = none ∧
    (zeroCapture.Start wSpawnFail "asdfasdf" []).spawned = true ∧
    (zeroCapture.Start wSpawnFail "asdfasdf" []).state.tmpCmd =
      some (commandContext "asdfasdf" []) ∧
    (zeroCapture.Start wSpawnFail "asdfasdf" []).state.ExitCode = 0 ∧
    (zeroCapture.Start wSpawnFail "asdfasdf" []).interact.isSome = true := by
  decide

/-- C5: the recorded exit code follows the extraction rule.  When nothing
was spawned the recorded code is the controller's previous one (0 on a
fresh controller); when the command ran, the recorded code is
`errToExitCode` of the returned error: 0 for a nil or non-exit error, and
the extracted code for an abnormal exit, which always comes with a
non-nil error. -/
theorem exit_code_extraction_rule (c : Capture) (w : World) (name : String)
    (args : List String) :
    ((c.Run w name args).spawned = false →
      (c.Run w name args).state.ExitCode = c.ExitCode) ∧
    ((c.Run w name args).spawned = true →
      (c.Run w name args).state.ExitCode = errToExitCode (c.Run w name args).err) ∧
    ((c.Run w name args).spawned = true → (c.Run w name args).err = none →
      (c.Run w name args).state.ExitCode = 0) ∧
    (∀ msg, (c.Run w name args).spawned = true →
      (c.Run w name args).err = some (.other msg) →
      (c.Run w name args).state.ExitCode = 0) ∧
    (∀ k, (c.Run w name args).spawned = true →
      (c.Run w name args).err = some (.exitError k) →
      (c.Run w name args).state.ExitCode = k ∧ (c.Run w name args).err ≠ none) := by
  unfold Capture.Run
  rcases hmk : ({ c with Name := name, Args := args } : Capture).makeExecCmd with e | cmd <;>
    simp only [hmk]
  · simp
  · rcases hout : (w.runOutcome cmd).err with _ | e
    · simp [Capture.doRun, hout, errToExitCode]
    · cases e <;> simp [Capture.doRun, hout, errToExitCode]

/-- A world whose run outcome is the abnormal exit of
`/bin/bash -c "exit 1"`: empty output and an `*exec.ExitError` carrying
code 1. -/
def wExit1 : World :=
  { w0 with runOutcome := fun _ =>
      { stdout := "", stderr := "", combined := "", err := some (.exitError 1) } }

/-- Witness for C5 at the reference input: running
`/bin/bash -c "exit 1"` records exit code 1 alongside a non-nil error. -/
theorem exit_code_extraction_rule_witness :
    (zeroCapture.Run wExit1 "/bin/bash" ["-c", "exit 1"]).state.ExitCode = 1 ∧
    (zeroCapture.Run wExit1 "/bin/bash" ["-c", "exit 1"]).err ≠ none :=
  (exit_code_extraction_rule zeroCapture wExit1 "/bin/bash" ["-c", "exit 1"]).2.2.2.2
    1 rfl rfl

/-- C6: `Rerun` is literally `Run` at the recorded `Name`/`Args`, and
`Restart` literally `Start` at them, with no caller-supplied arguments;
and a `Run` followed immediately by a `Rerun` against the same
(deterministic) world yields the same returned error and the same
recorded exit code, since the second invocation rebuilds an identical
launch request from the recorded fields. -/
theorem rerun_restart_reinvoke (c : Capture) (w : World) (name : String)
    (args : List String) :
    c.Rerun w = c.Run w c.Name c.Args ∧
    c.Restart w = c.Start w c.Name c.Args ∧
    ((c.Run w name args).state.Rerun w).err = (c.Run w name args).err ∧
    ((c.Run w name args).state.Rerun w).state.ExitCode =
      (c.Run w name args).state.ExitCode := by
  refine ⟨rfl, rfl, ?_⟩
  rcases hm : c.cmdModifierFunc with _ | f
  · constructor <;>
      simp [Capture.Run, Capture.Rerun, Capture.doRun, Capture.makeExecCmd,
        Capture.launchRequest, commandContext, hm]
  · rcases hf : f (Capture.launchRequest { c with Name := name, Args := args }) with e | cmd <;>
      simp only [Capture.launchRequest, commandContext] at hf <;>
      constructor <;>
      simp [Capture.Run, Capture.Rerun, Capture.doRun, Capture.makeExecCmd,
        Capture.launchRequest, commandContext, hm, hf]

/-- C7: when the controller carries a pre-launch modifier hook and the
hook fails on the launch request, `Run`, `Start` and `CombinedOutput` all
abort before any spawn (the spawn primitive is never invoked), return the
hook's error synchronously, and hand back nil pipes / nil Interact. -/
theorem modifier_failure_aborts (c : Capture) (w : World) (name : String)
    (args : List String) (f : ExecCmd → Except GoErr ExecCmd) (e : GoErr)
    (hm : c.cmdModifierFunc = some f)
    (hf : f (Capture.launchRequest { c with Name := name, Args := args }) = .error e) :
    (c.Run w name args).spawned = false ∧
    (c.Run w name args).err = some e ∧
    (c.Run w name args).pipes = none ∧
    (c.Start w name args).spawned = false ∧
    (c.Start w name args).err = some e ∧
    (c.Start w name args).interact = none ∧
    (c.CombinedOutput w name args).spawned = false ∧
    (c.CombinedOutput w name args).err = some e := by
  have hf' := hf
  simp only [Capture.launchRequest, commandContext] at hf'
  simp [Capture.Run, Capture.Start, Capture.CombinedOutput, Capture.makeExecCmd,
    Capture.launchRequest, commandContext, hm, hf']

/-- A modifier hook that always fails. -/
def failingModifier : ExecCmd → Except GoErr ExecCmd :=
  fun _ => .error (.other "modifier failed")

/-- A controller carrying the failing modifier hook. -/
def cMod : Capture := { zeroCapture with cmdModifierFunc := some failingModifier }

/-- Witness for C7 at a concrete input: with the failing hook installed,
`Run`, `Start` and `CombinedOutput` abort before spawn with its error. -/
theorem modifier_failure_aborts_witness :
    (cMod.Run w0 "sleep" ["1"]).spawned = false ∧
    (cMod.Run w0 "sleep" ["1"]).err = some (.other "modifier failed") ∧
    (cMod.Run w0 "sleep" ["1"]).pipes = none ∧
    (cMod.Start w0 "sleep" ["1"]).spawned = false ∧
    (cMod.Start w0 "sleep" ["1"]).err = some (.other "modifier failed") ∧
    (cMod.Start w0 "sleep" ["1"]).interact = none ∧
    (cMod.CombinedOutput w0 "sleep" ["1"]).spawned = false ∧
    (cMod.CombinedOutput w0 "sleep" ["1"]).err = some (.other "modifier failed") :=
  modifier_failure_aborts cMod w0 "sleep" ["1"] failingModifier
    (.other "modifier failed") rfl rfl

/-- C8: even on failure the caller gets a populated result.  On the
`Capture` side, after any `Run` the controller holds the given
name/args and every previously-set option (`Dir`, `Env`, the modifier)
unchanged.  On the `Result` side, `CaptureContext` always hands back a
populated `Result` value alongside the error — name, args, env, the
combined output and the extracted exit code — never a nil result. -/
theorem run_and_capture_always_populated (c : Capture) (w : World) (name : String)
    (args : List String) (env : Option (List String)) :
    ((c.Run w name args).state.Name = name ∧
     (c.Run w name args).state.Args = args ∧
     (c.Run w name args).state.Dir = c.Dir ∧
     (c.Run w name args).state.Env = c.Env ∧
     (c.Run w name args).state.cmdModifierFunc = c.cmdModifierFunc) ∧
    ((ResultVer.CaptureContext env name args w).1.Name = pathBase name ∧
     (ResultVer.CaptureContext env name args w).1.Args = args ∧
     (ResultVer.CaptureContext env name args w).1.Env = env ∧
     (ResultVer.CaptureContext env name args w).1.ExitCode =
       ResultVer.errToExitCode (ResultVer.CaptureContext env name args w).2 ∧
     (ResultVer.CaptureContext env name args w).1.Output =
       (w.runOutcome { commandContext name args with env := env }).combined) := by
  constructor
  · unfold Capture.Run
    rcases hmk : ({ c with Name := name, Args := args } : Capture).makeExecCmd
        with e | cmd <;>
      simp [hmk, Capture.doRun]
  · simp [ResultVer.CaptureContext, ResultVer.capture, commandContext]

/-- The `Pipes` value `doRun` builds under the benign world: its `Stdin`
is nil. -/
def runPipes : Pipes := { Stdin := none, Stdout := some "", Stderr := some "" }

/-- C9: close-input on a triple with no input conduit.  The triple
returned by `Run` always has a nil `Stdin`, and `Pipes.CloseInput` calls
`Close` on it with no nil check, which is a nil-interface method call:
a runtime panic, not a nil-returning no-op.  (The sibling
`IO.CloseInput` of io.go does implement the documented no-op.) -/
theorem close_input_nil_stdin_panics :
    (zeroCapture.Run w0 "echo" ["hello"]).pipes = some runPipes ∧
    runPipes.Stdin = none ∧
    runPipes.CloseInput =
      .panicked "runtime error: invalid memory address or nil pointer dereference" ∧
    IOStreams.CloseInput { Stdin := none, Stdout := none, Stderr := none } = .ok none := by
  decide

/-- C10: every `Run`, `CombinedOutput` and `Start` overwrites the
recorded `Name` and `Args` with the call's arguments — whether or not the
launch then fails — while `Dir`, `Env` and the modifier hook are left
unchanged; consequently a `Rerun` issued after any such call re-invokes
the new name/args. -/
theorem launch_overwrites_name_args (c : Capture) (w : World) (n : String)
    (a : List String) :
    ((c.Run w n a).state.Name = n ∧ (c.Run w n a).state.Args = a ∧
     (c.Run w n a).state.Dir = c.Dir ∧ (c.Run w n a).state.Env = c.Env ∧
     (c.Run w n a).state.cmdModifierFunc = c.cmdModifierFunc) ∧
    ((c.CombinedOutput w n a).state.Name = n ∧ (c.CombinedOutput w n a).state.Args = a ∧
     (c.CombinedOutput w n a).state.Dir = c.Dir ∧
     (c.CombinedOutput w n a).state.Env = c.Env ∧
     (c.CombinedOutput w n a).state.cmdModifierFunc = c.cmdModifierFunc) ∧
    ((c.Start w n a).state.Name = n ∧ (c.Start w n a).state.Args = a ∧
     (c.Start w n a).state.Dir = c.Dir ∧ (c.Start w n a).state.Env = c.Env ∧
     (c.Start w n a).state.cmdModifierFunc = c.cmdModifierFunc) ∧
    (c.Run w n a).state.Rerun w = (c.Run w n a).state.Run w n a := by
  refine ⟨?_, ?_, ?_, ?_⟩
  · unfold Capture.Run
    rcases hmk : ({ c with Name := n, Args := a } : Capture).makeExecCmd with e | cmd <;>
      simp [hmk, Capture.doRun]
  · unfold Capture.CombinedOutput
    rcases hmk : ({ c with Name := n, Args := a } : Capture).makeExecCmd with e | cmd <;>
      simp [hmk]
  · unfold Capture.Start
    rcases hmk : ({ c with Name := n, Args := a, tmpCancel := true } : Capture).makeExecCmd
        with e | cmd
    · simp [hmk]
    · rcases hs1 : w.stdinPipe cmd with e1 | stdin <;>
        rcases hs2 : w.stdoutPipe cmd with e2 | stdout <;>
        rcases hs3 : w.stderrPipe cmd with e3 | stderr <;>
        rcases hse : w.startErr cmd with _ | e4 <;>
        simp [hmk, Capture.doStart, hs1, hs2, hs3, hse]
  · unfold Capture.Rerun
    unfold Capture.Run
    rcases hmk : ({ c with Name := n, Args := a } : Capture).makeExecCmd with e | cmd <;>
      simp only [hmk, Capture.doRun]

end Command
